import Mathlib

/-
Verification development for the Quanta quantum calculator
(src/Quanta.py).  The core operations of `QuantumCalculator` and the
validating GUI handlers of `QuantumVerseCalculatorGUI` are embedded
shallowly.  The source delegates state simulation and measurement
sampling to an external simulator library; following the design notes
of the specification, that layer (unitary application, Born-rule
probabilities, seeded categorical sampling) is modelled from the
spec's re-derived linear-algebra contract, while every piece of logic
that lives in src/Quanta.py (circuit construction, validation checks,
error-rate and spin arithmetic) is translated directly from the
source.
-/

set_option autoImplicit false

namespace Quanta

/-- Gate kinds supported by `calculate_gate_variables`
(src/Quanta.py lines 72-83). -/
inductive GateKind where
  | H
  | X
  | RX
  | RY
  | RZ
deriving DecidableEq, Repr

/-- Failure outcomes of the embedded operations.  The source raises
Python `ValueError` with distinguishing messages; the spec's error
taxonomy names them.  `invalidSize` is the GUI handler's positive-int
check (line 439), `unsupportedGate` is the gate-kind check (line 83),
`lengthMismatch` is the Grover length check (lines 115-116),
`invalidQubit` is the GUI qubit-index check (lines 479-480), and
`noCounts` models the simulator error raised by `get_counts` when the
executed circuit recorded no measurement outcomes. -/
inductive QError where
  | invalidSize
  | unsupportedGate
  | lengthMismatch
  | invalidQubit
  | noCounts
deriving DecidableEq, Repr

/-- A circuit description: register size, the ordered gate list
(kind, angle parameter, target qubit) and whether a terminal
full-register measurement was appended (`circuit.measure` in the
source). -/
structure Circuit where
  numQubits : Nat
  gates : List (GateKind × ℝ × Nat)
  measured : Bool

/-- Modelled from the spec: the 2x2 unitary for each supported gate
kind (spec 4.1), given as the tuple (m00, m01, m10, m11).  The angle
is used only by the rotation gates. -/
noncomputable def gateMatrix : GateKind → ℝ → ℂ × ℂ × ℂ × ℂ
  | GateKind.H, _ =>
      (((1 / Real.sqrt 2 : ℝ) : ℂ), ((1 / Real.sqrt 2 : ℝ) : ℂ),
       ((1 / Real.sqrt 2 : ℝ) : ℂ), -((1 / Real.sqrt 2 : ℝ) : ℂ))
  | GateKind.X, _ => (0, 1, 1, 0)
  | GateKind.RX, θ =>
      (((Real.cos (θ / 2) : ℝ) : ℂ), -Complex.I * ((Real.sin (θ / 2) : ℝ) : ℂ),
       -Complex.I * ((Real.sin (θ / 2) : ℝ) : ℂ), ((Real.cos (θ / 2) : ℝ) : ℂ))
  | GateKind.RY, θ =>
      (((Real.cos (θ / 2) : ℝ) : ℂ), -((Real.sin (θ / 2) : ℝ) : ℂ),
       ((Real.sin (θ / 2) : ℝ) : ℂ), ((Real.cos (θ / 2) : ℝ) : ℂ))
  | GateKind.RZ, θ =>
      (Complex.exp (-(((θ / 2 : ℝ) : ℂ)) * Complex.I), 0,
       0, Complex.exp (((θ / 2 : ℝ) : ℂ) * Complex.I))

/-- Modelled from the spec: act with a 2x2 unitary on the target
qubit's subspace by pairing amplitude indices that differ only in the
target bit (spec 4.1). -/
noncomputable def applySingle (m : ℂ × ℂ × ℂ × ℂ) (t : Nat) (v : Nat → ℂ) : Nat → ℂ :=
  fun i =>
    if Nat.testBit i t then m.2.2.1 * v (i - 2 ^ t) + m.2.2.2 * v i
    else m.1 * v i + m.2.1 * v (i + 2 ^ t)

/-- Modelled from the spec: the all-zero basis state, amplitude 1 at
index 0 and 0 elsewhere (spec 4.1). -/
def initState : Nat → ℂ := fun i => if i = 0 then 1 else 0

/-- Modelled from the spec: the simulator applies every gate of the
circuit in sequence order starting from the all-zero state
(spec 4.2). -/
noncomputable def runCircuit (c : Circuit) : Nat → ℂ :=
  c.gates.foldl (fun v g => applySingle (gateMatrix g.1 g.2.1) g.2.2 v) initState

/-- Modelled from the spec: Born-rule probabilities, the squared
magnitude of each of the 2^n basis amplitudes (spec 4.3). -/
noncomputable def bornProbs (v : Nat → ℂ) (n : Nat) : List ℝ :=
  (List.range (2 ^ n)).map fun i => Complex.normSq (v i)

/-- Modelled from the spec: one step of a seedable pseudo-random
source (spec 4.3), a 64-bit linear congruential generator. -/
def lcgNext (s : Nat) : Nat :=
  (6364136223846793005 * s + 1442695040888963407) % 2 ^ 64

/-- Draw one categorical sample: the index of the interval of the
cumulative distribution that the uniform draw `u` falls into. -/
def pick {α : Type} [LinearOrderedField α] : List α → α → Nat
  | [], _ => 0
  | q :: rest, u => if u < q then 0 else pick rest (u - q) + 1

/-- Outcome key for basis index `i` over `n` classical bits, written
the way the source's counts dictionary keys are: qubit 0 is the
rightmost character. -/
def bitstring (n i : Nat) : String :=
  String.mk ((List.range n).map fun j => if Nat.testBit i (n - 1 - j) then '1' else '0')

/-- Measurement Outcome Table: association list from outcome
bitstring to count, the shape of the source's counts dictionary. -/
abbrev Counts := List (String × Nat)

/-- Record one more observation of outcome `k` in the table. -/
def addCount : Counts → String → Counts
  | [], k => [(k, 1)]
  | (k', c) :: rest, k =>
      if k' = k then (k', c + 1) :: rest else (k', c) :: addCount rest k

/-- Total number of recorded shots in an Outcome Table. -/
def sumCounts (t : Counts) : Nat :=
  (t.map fun e => e.2).sum

/-- Modelled from the spec: draw `shots` independent categorical
samples from the Born distribution using the seeded pseudo-random
source and tabulate outcome counts (spec 4.3). -/
noncomputable def sample (p : List ℝ) (nbits : Nat) : Nat → Nat → Counts
  | 0, _ => []
  | shots + 1, s =>
      addCount (sample p nbits shots (lcgNext s))
        (bitstring nbits (pick p ((lcgNext s : ℝ) / 2 ^ 64)))

/-- Modelled from the spec: one simulator execution (spec 4.2).  It
always produces the final amplitude vector (the source appends
`save_statevector` to every circuit); an Outcome Table is produced
only when the circuit contains the terminal measurement, since only
measured classical bits yield counts. -/
noncomputable def simRun (c : Circuit) (shots seed : Nat) : (Nat → ℂ) × Option Counts :=
  let v := runCircuit c
  (v, if c.measured then some (sample (bornProbs v c.numQubits) c.numQubits shots seed) else none)

/-- Extraction of the counts of a run result, as the source's
`result.get_counts(circuit)` does: it fails when the run recorded no
measurement outcomes. -/
def getCountsResult : Option Counts → Except QError Counts
  | some t => Except.ok t
  | none => Except.error QError.noCounts

/-- Circuit built by `QuantumCalculator.observe_qubits`
(src/Quanta.py lines 41-44): H on every qubit, then measure every
qubit. -/
def observeCircuit (n : Nat) : Circuit :=
  ⟨n, (List.range n).map fun q => (GateKind.H, (0 : ℝ), q), true⟩

/-- Embedding of `QuantumCalculator.observe_qubits`
(src/Quanta.py lines 39-49): run the H-on-every-qubit measurement
circuit and return the counts. -/
noncomputable def observe_qubits (n shots seed : Nat) : Except QError Counts :=
  getCountsResult (simRun (observeCircuit n) shots seed).2

/-- The `errors` accumulator of `calculate_error_rates`
(src/Quanta.py lines 58-61): sum the counts of the outcomes that
contain at least one '1' character. -/
def errorCount (t : Counts) : Nat :=
  t.foldl (fun acc e => if e.1.contains '1' then acc + e.2 else acc) 0

/-- Embedding of `QuantumCalculator.calculate_error_rates`
(src/Quanta.py lines 54-67): observe, then divide the error count by
the total count. -/
noncomputable def calculate_error_rates (n shots seed : Nat) : Except QError ℝ :=
  (observe_qubits n shots seed).map fun counts =>
    (errorCount counts : ℝ) / (sumCounts counts : ℝ)

/-- Circuit built by `QuantumCalculator.calculate_spin`
(src/Quanta.py lines 93-98): one qubit, X first exactly when the
requested state is the string "1", then H, then measure. -/
def spinCircuit (qs : Option String) : Circuit :=
  ⟨1, (if qs = some "1" then [(GateKind.X, (0 : ℝ), 0)] else []) ++ [(GateKind.H, (0 : ℝ), 0)], true⟩

/-- Count recorded for key `k`, defaulting to 0, as the source's
`counts.get('1', 0)`. -/
def getCount (t : Counts) (k : String) : Nat :=
  (List.lookup k t).getD 0

/-- Embedding of `QuantumCalculator.calculate_spin`
(src/Quanta.py lines 91-108): run the spin circuit with 1024 shots
and return (count of outcome "1") / 1024. -/
noncomputable def calculate_spin (qs : Option String) (seed : Nat) : Except QError ℝ :=
  (getCountsResult (simRun (spinCircuit qs) 1024 seed).2).map fun counts =>
    (getCount counts "1" : ℝ) / 1024

/-- Model of Python's `str.upper` on the ASCII gate-name strings the
source compares against: uppercase every character. -/
def pyUpper (s : String) : String :=
  String.mk (s.data.map Char.toUpper)

/-- Embedding of `QuantumCalculator.calculate_gate_variables`
(src/Quanta.py lines 69-89): build a one-gate circuit on qubit+1
qubits, dispatching on the uppercased gate type; no measurement is
appended (the source only adds `save_statevector`). -/
def calculate_gate_variables (gate_type : String) (angle : ℝ) (qubit : Nat) :
    Except QError Circuit :=
  if pyUpper gate_type = "RX" then Except.ok ⟨qubit + 1, [(GateKind.RX, angle, qubit)], false⟩
  else if pyUpper gate_type = "RY" then Except.ok ⟨qubit + 1, [(GateKind.RY, angle, qubit)], false⟩
  else if pyUpper gate_type = "RZ" then Except.ok ⟨qubit + 1, [(GateKind.RZ, angle, qubit)], false⟩
  else if pyUpper gate_type = "H" then Except.ok ⟨qubit + 1, [(GateKind.H, angle, qubit)], false⟩
  else if pyUpper gate_type = "X" then Except.ok ⟨qubit + 1, [(GateKind.X, angle, qubit)], false⟩
  else Except.error QError.unsupportedGate

/-- Embedding of the GUI handler `QuantumVerseCalculatorGUI.apply_gate`
(src/Quanta.py lines 474-500): validate the qubit index, build the
one-gate circuit, run it with 1024 shots and extract both the
statevector and the counts of the same run. -/
noncomputable def apply_gate (gate_type : String) (angle : ℝ) (qubit : Int) (seed : Nat) :
    Except QError ((Nat → ℂ) × Counts) :=
  if qubit < 0 then Except.error QError.invalidQubit
  else
    match calculate_gate_variables gate_type angle qubit.toNat with
    | Except.error e => Except.error e
    | Except.ok c =>
        let r := simRun c 1024 seed
        match r.2 with
        | some t => Except.ok (r.1, t)
        | none => Except.error QError.noCounts

/-- Embedding of the GUI handler `QuantumVerseCalculatorGUI.observe_qubits`
(src/Quanta.py lines 435-441): reject non-positive qubit or shot
counts before calling the core operation. -/
noncomputable def observe_qubits_gui (n shots : Int) (seed : Nat) : Except QError Counts :=
  if n ≤ 0 ∨ shots ≤ 0 then Except.error QError.invalidSize
  else observe_qubits n.toNat shots.toNat seed

/-- Embedding of `QuantumCalculator.grovers_speed_between_qubits`
(src/Quanta.py lines 110-139).  The length check is translated from
lines 115-116.  Modelled from the spec: the returned iteration count
is produced inside the external Grover implementation, absent from
src/; per spec 4.4 it is the analytic optimum round(pi/4 * sqrt(2^n)).
The oracle construction of lines 118-126 does not influence that
count and is not modelled. -/
noncomputable def grovers_speed_between_qubits (target_state : String) (num_qubits : Nat) :
    Except QError ℤ :=
  if target_state.length ≠ num_qubits then Except.error QError.lengthMismatch
  else Except.ok (round (Real.pi / 4 * Real.sqrt ((2 : ℝ) ^ num_qubits)))

/-- Recording one more observation raises the total count by exactly
one. -/
theorem sumCounts_addCount (t : Counts) (k : String) :
    sumCounts (addCount t k) = sumCounts t + 1 := by
  induction t with
  | nil => simp [addCount, sumCounts]
  | cons e rest ih =>
      obtain ⟨k', c⟩ := e
      by_cases h : k' = k
      · simp [addCount, sumCounts, h]
        omega
      · simp [addCount, sumCounts, h] at ih ⊢
        omega

/-- The sampler's Outcome Table records exactly the requested number
of shots. -/
theorem sumCounts_sample (p : List ℝ) (nbits : Nat) :
    ∀ shots s, sumCounts (sample p nbits shots s) = shots := by
  intro shots
  induction shots with
  | zero => intro s; rfl
  | succ n ih => intro s; simp [sample, sumCounts_addCount, ih]

theorem errorCount_foldl_le (t : Counts) :
    ∀ acc : Nat,
      t.foldl (fun acc e => if e.1.contains '1' then acc + e.2 else acc) acc ≤
        acc + sumCounts t := by
  induction t with
  | nil => intro acc; simp [sumCounts]
  | cons e rest ih =>
      intro acc
      simp only [List.foldl_cons]
      by_cases h : e.1.contains '1'
      · simp only [h, if_pos]
        calc rest.foldl _ (acc + e.2) ≤ acc + e.2 + sumCounts rest := ih (acc + e.2)
          _ ≤ acc + sumCounts (e :: rest) := by simp [sumCounts]; omega
      · simp only [h]
        calc rest.foldl _ acc ≤ acc + sumCounts rest := ih acc
          _ ≤ acc + sumCounts (e :: rest) := by simp [sumCounts]

/-- The error accumulator never exceeds the total count. -/
theorem errorCount_le_sumCounts (t : Counts) : errorCount t ≤ sumCounts t := by
  simpa using errorCount_foldl_le t 0

/-- The count recorded for any single key never exceeds the total
count. -/
theorem getCount_le_sumCounts (t : Counts) (k : String) :
    getCount t k ≤ sumCounts t := by
  induction t with
  | nil => simp [getCount, sumCounts]
  | cons e rest ih =>
      obtain ⟨k', c⟩ := e
      by_cases h : k == k'
      · simp [getCount, List.lookup, h, sumCounts]
      · simp [getCount, List.lookup, h, sumCounts] at ih ⊢
        omega

/-- C1: for every numQubits > 0 and shots > 0, `calculate_error_rates`
returns (sum of counts for outcomes containing at least one '1' bit)
divided by (sum of all counts) over the Outcome Table produced by the
H-on-every-qubit measurement circuit, and the value lies in [0, 1]. -/
theorem calculate_error_rates_spec (n shots seed : Nat) (hn : 0 < n) (hs : 0 < shots) :
    ∃ t : Counts,
      observe_qubits n shots seed = Except.ok t ∧
      calculate_error_rates n shots seed =
        Except.ok ((errorCount t : ℝ) / (sumCounts t : ℝ)) ∧
      0 ≤ (errorCount t : ℝ) / (sumCounts t : ℝ) ∧
      (errorCount t : ℝ) / (sumCounts t : ℝ) ≤ 1 := by
  refine ⟨sample (bornProbs (runCircuit (observeCircuit n)) n) n shots seed, rfl, rfl, ?_, ?_⟩
  · exact div_nonneg (Nat.cast_nonneg _) (Nat.cast_nonneg _)
  · have hsum : sumCounts (sample (bornProbs (runCircuit (observeCircuit n)) n) n shots seed)
        = shots := sumCounts_sample _ _ _ _
    have hpos : (0 : ℝ) <
        (sumCounts (sample (bornProbs (runCircuit (observeCircuit n)) n) n shots seed) : ℝ) := by
      rw [hsum]
      exact_mod_cast hs
    exact (div_le_one hpos).mpr (Nat.cast_le.mpr (errorCount_le_sumCounts _))

/-- Witness for C1 at numQubits = 1, shots = 1024, seed = 0. -/
theorem calculate_error_rates_spec_witness :
    ∃ t : Counts,
      observe_qubits 1 1024 0 = Except.ok t ∧
      calculate_error_rates 1 1024 0 =
        Except.ok ((errorCount t : ℝ) / (sumCounts t : ℝ)) ∧
      0 ≤ (errorCount t : ℝ) / (sumCounts t : ℝ) ∧
      (errorCount t : ℝ) / (sumCounts t : ℝ) ≤ 1 :=
  calculate_error_rates_spec 1 1024 0 (by decide) (by decide)

/-- C2: for every numQubits > 0 and shots > 0, `observe_qubits`
prepares the register by applying H to every qubit and then measuring
all qubits, and the returned Outcome Table's counts sum to exactly
shots. -/
theorem observe_qubits_spec (n shots seed : Nat) (hn : 0 < n) (hs : 0 < shots) :
    (observeCircuit n).gates = (List.range n).map (fun q => (GateKind.H, (0 : ℝ), q)) ∧
    (observeCircuit n).measured = true ∧
    ∃ t : Counts, observe_qubits n shots seed = Except.ok t ∧ sumCounts t = shots :=
  ⟨rfl, rfl, sample (bornProbs (runCircuit (observeCircuit n)) n) n shots seed, rfl,
    sumCounts_sample _ _ _ _⟩

/-- Witness for C2 at numQubits = 2, shots = 1024, seed = 0. -/
theorem observe_qubits_spec_witness :
    (observeCircuit 2).gates = (List.range 2).map (fun q => (GateKind.H, (0 : ℝ), q)) ∧
    (observeCircuit 2).measured = true ∧
    ∃ t : Counts, observe_qubits 2 1024 0 = Except.ok t ∧ sumCounts t = 1024 :=
  observe_qubits_spec 2 1024 0 (by decide) (by decide)

/-- C3: `calculate_spin` builds a single-qubit circuit applying X
first exactly when the requested initial state is "1", then H,
measures 1024 shots, and returns (count of outcome "1") / 1024, a
value in [0, 1]. -/
theorem calculate_spin_spec (qs : Option String) (seed : Nat) :
    ∃ t : Counts,
      t = sample (bornProbs (runCircuit (spinCircuit qs)) 1) 1 1024 seed ∧
      calculate_spin qs seed = Except.ok ((getCount t "1" : ℝ) / 1024) ∧
      sumCounts t = 1024 ∧
      (spinCircuit qs).numQubits = 1 ∧
      (spinCircuit qs).gates =
        (if qs = some "1" then [(GateKind.X, (0 : ℝ), 0)] else []) ++
          [(GateKind.H, (0 : ℝ), 0)] ∧
      (spinCircuit qs).measured = true ∧
      0 ≤ (getCount t "1" : ℝ) / 1024 ∧ (getCount t "1" : ℝ) / 1024 ≤ 1 := by
  refine ⟨_, rfl, rfl, sumCounts_sample _ _ _ _, rfl, rfl, rfl, ?_, ?_⟩
  · exact div_nonneg (Nat.cast_nonneg _) (by norm_num)
  · rw [div_le_one (by norm_num)]
    have h := getCount_le_sumCounts
      (sample (bornProbs (runCircuit (spinCircuit qs)) 1) 1 1024 seed) "1"
    rw [sumCounts_sample] at h
    exact_mod_cast h

/-- C4: when the target bitstring's length equals numQubits, the
Grover operation returns the analytic optimum round(pi/4 * sqrt(2^n))
as a non-negative integer, and on ("11", 2) it returns 2. -/
theorem grovers_iteration_count_spec :
    (∀ (target : String) (n : Nat), target.length = n →
      grovers_speed_between_qubits target n =
        Except.ok (round (Real.pi / 4 * Real.sqrt ((2 : ℝ) ^ n))) ∧
      0 ≤ round (Real.pi / 4 * Real.sqrt ((2 : ℝ) ^ n))) ∧
    grovers_speed_between_qubits "11" 2 = Except.ok 2 := by
  have key : ∀ (target : String) (n : Nat), target.length = n →
      grovers_speed_between_qubits target n =
        Except.ok (round (Real.pi / 4 * Real.sqrt ((2 : ℝ) ^ n))) ∧
      0 ≤ round (Real.pi / 4 * Real.sqrt ((2 : ℝ) ^ n)) := by
    intro target n h
    constructor
    · unfold grovers_speed_between_qubits
      rw [if_neg (by simp [h])]
    · rw [round_eq, Int.floor_nonneg]
      have h1 : (0 : ℝ) ≤ Real.pi / 4 * Real.sqrt ((2 : ℝ) ^ n) :=
        mul_nonneg (by positivity) (Real.sqrt_nonneg _)
      linarith
  refine ⟨key, ?_⟩
  have h2 := (key "11" 2 rfl).1
  rw [h2]
  have hs : Real.sqrt ((2 : ℝ) ^ (2 : ℕ)) = 2 := Real.sqrt_sq (by norm_num)
  have hval : Real.pi / 4 * Real.sqrt ((2 : ℝ) ^ (2 : ℕ)) = Real.pi / 2 := by
    rw [hs]; ring
  have hround : round (Real.pi / 2) = (2 : ℤ) := by
    rw [round_eq, Int.floor_eq_iff]
    have hgt := Real.pi_gt_three
    have hlt := Real.pi_lt_d2
    constructor
    · push_cast
      linarith
    · push_cast
      linarith
  rw [hval, hround]

/-- Witness for C4 at target "11", numQubits 2. -/
theorem grovers_iteration_count_spec_witness :
    grovers_speed_between_qubits "11" 2 =
      Except.ok (round (Real.pi / 4 * Real.sqrt ((2 : ℝ) ^ (2 : ℕ)))) ∧
    grovers_speed_between_qubits "11" 2 = Except.ok 2 :=
  ⟨(grovers_iteration_count_spec.1 "11" 2 (by decide)).1, grovers_iteration_count_spec.2⟩

/-- C5: whenever the target bitstring's length differs from
numQubits, the Grover operation fails with the length-mismatch error
and no iteration count is produced; the check is the first step of
the embedded function, before any circuit is built. -/
theorem grovers_length_mismatch (target : String) (n : Nat) (h : target.length ≠ n) :
    grovers_speed_between_qubits target n = Except.error QError.lengthMismatch := by
  unfold grovers_speed_between_qubits
  rw [if_pos h]

/-- Witness for C5 at target "1", numQubits 3. -/
theorem grovers_length_mismatch_witness :
    grovers_speed_between_qubits "1" 3 = Except.error QError.lengthMismatch :=
  grovers_length_mismatch "1" 3 (by decide)

/-- C6 counterexample: the gate kind "h" lies outside
{H, X, RX, RY, RZ}, yet `calculate_gate_variables` succeeds on it
(the source uppercases the gate type before comparing), so the claim
as stated is false. -/
theorem gate_lowercase_accepted :
    calculate_gate_variables "h" 0 0 =
      Except.ok ⟨1, [(GateKind.H, 0, 0)], false⟩ ∧
    "h" ∉ (["H", "X", "RX", "RY", "RZ"] : List String) :=
  ⟨rfl, by decide⟩

/-- C6 amended: for every gate kind whose uppercased form is outside
{H, X, RX, RY, RZ}, `calculate_gate_variables` fails with the
unsupported-gate error and returns no circuit. -/
theorem unsupported_gate_fails (gate_type : String) (angle : ℝ) (qubit : Nat)
    (h : pyUpper gate_type ∉ (["H", "X", "RX", "RY", "RZ"] : List String)) :
    calculate_gate_variables gate_type angle qubit = Except.error QError.unsupportedGate := by
  simp only [List.mem_cons, List.mem_singleton, not_or] at h
  obtain ⟨h1, h2, h3, h4, h5⟩ := h
  simp [calculate_gate_variables, h1, h2, h3, h4, h5]

/-- Witness for the amended C6 at gate kind "Q". -/
theorem unsupported_gate_fails_witness :
    calculate_gate_variables "Q" 0 0 = Except.error QError.unsupportedGate :=
  unsupported_gate_fails "Q" 0 0 (by decide)

/-- C7: the observe operation (whose input validation lives in the
GUI handler, src/Quanta.py line 439) fails with the invalid-size
error whenever numQubits ≤ 0, producing no Outcome Table. -/
theorem observe_qubits_invalid_size (n shots : Int) (seed : Nat) (h : n ≤ 0) :
    observe_qubits_gui n shots seed = Except.error QError.invalidSize := by
  unfold observe_qubits_gui
  rw [if_pos (Or.inl h)]

/-- Witness for C7 at numQubits = 0, shots = 1024. -/
theorem observe_qubits_invalid_size_witness :
    observe_qubits_gui 0 1024 0 = Except.error QError.invalidSize :=
  observe_qubits_invalid_size 0 1024 0 (by decide)

/-- C8: with a fixed seed, two calls of the sampling step on
identical amplitude vectors with the same shot count produce
identical Outcome Tables. -/
theorem sampling_deterministic (v w : Nat → ℂ) (n shots seed : Nat) (h : v = w) :
    sample (bornProbs v n) n shots seed = sample (bornProbs w n) n shots seed := by
  rw [h]

/-- Witness for C8 on a concrete vector, 3 shots, seed 7. -/
theorem sampling_deterministic_witness :
    sample (bornProbs (fun _ => (0 : ℂ)) 1) 1 3 7 =
      sample (bornProbs (fun _ => (0 : ℂ)) 1) 1 3 7 :=
  sampling_deterministic (fun _ => (0 : ℂ)) (fun _ => (0 : ℂ)) 1 3 7 rfl

/-- C9: every circuit successfully built by
`calculate_gate_variables` spans qubitIndex + 1 qubits and holds one
gate, but carries no measurement, so the run result records no
counts and the GUI gate report fails at `get_counts` instead of
returning the statevector together with a 1024-shot Outcome Table. -/
theorem gate_report_no_counts (gate_type : String) (angle : ℝ) (qubit : Nat) (c : Circuit)
    (h : calculate_gate_variables gate_type angle qubit = Except.ok c) :
    c.numQubits = qubit + 1 ∧ c.gates.length = 1 ∧ c.measured = false ∧
    ∀ seed : Nat, apply_gate gate_type angle (qubit : Int) seed =
      Except.error QError.noCounts := by
  have hc : c.numQubits = qubit + 1 ∧ c.gates.length = 1 ∧ c.measured = false := by
    unfold calculate_gate_variables at h
    split_ifs at h <;> simp only [Except.ok.injEq] at h <;> subst h <;> exact ⟨rfl, rfl, rfl⟩
  refine ⟨hc.1, hc.2.1, hc.2.2, ?_⟩
  intro seed
  have hq : ¬ ((qubit : Int) < 0) := not_lt.mpr (Int.natCast_nonneg qubit)
  unfold apply_gate
  rw [if_neg hq]
  have ht : (qubit : Int).toNat = qubit := Int.toNat_natCast qubit
  rw [ht, h]
  simp [simRun, hc.2.2]

/-- Witness for C9 at gate "H", angle 0, qubit 0, seed 0. -/
theorem gate_report_no_counts_witness :
    (Circuit.mk 1 [(GateKind.H, 0, 0)] false).measured = false ∧
    apply_gate "H" 0 0 0 = Except.error QError.noCounts := by
  have h := gate_report_no_counts "H" 0 0 ⟨1, [(GateKind.H, 0, 0)], false⟩ rfl
  exact ⟨h.2.2.1, h.2.2.2 0⟩

/-- C10: for every qubit_state other than the string "1" (including
none, "0", the empty string or anything else), `calculate_spin`
builds the identical circuit as the default call, returns the same
result, and raises no validation error. -/
theorem calculate_spin_default_equiv (qs : Option String) (seed : Nat)
    (h : qs ≠ some "1") :
    calculate_spin qs seed = calculate_spin none seed ∧
    ∃ r : ℝ, calculate_spin qs seed = Except.ok r := by
  have hc : spinCircuit qs = spinCircuit none := by
    simp [spinCircuit, h]
  constructor
  · unfold calculate_spin
    rw [hc]
  · exact ⟨_, rfl⟩

/-- Witness for C10 at qubit_state "0", seed 0. -/
theorem calculate_spin_default_equiv_witness :
    calculate_spin (some "0") 0 = calculate_spin none 0 ∧
    ∃ r : ℝ, calculate_spin (some "0") 0 = Except.ok r :=
  calculate_spin_default_equiv (some "0") 0 (by decide)

end Quanta
